import Mathlib

/-!
Shallow embedding of the evaluation subsystem of the
Chatbot AI Response Intelligence Evaluation System
(`evaluation/rules.py`, `evaluation/metrics.py`, `evaluation/engine.py`,
`evaluation/feedback.py`).

Modelling conventions:
* Python numbers are embedded as `ℚ` (the code works with decimal score
  values; `round(x, 2)` and `"%.1f"`-style formatting are modelled with
  round-half-to-even, the rounding Python documents for floats).
* JSON values flowing through the pipeline are atoms (numbers and
  strings); decoded objects are key/value association lists in decoding
  order (Python dicts preserve insertion order, `json.loads` keys are
  unique).
* The external text generator (`llm_callable`) and the Python library
  functions `re.sub` + `json.loads` used on its raw output are oracles:
  a `GenResult` records either the exception the callable raised or the
  returned text together with the outcome of JSON-decoding its cleaned
  form.  All repository-level control flow downstream of those calls is
  embedded from the source.
* Fallible Python code (an uncaught exception) is `Except String`; the
  error string stands for the exception.
* `re` scanning for the two fixed patterns of `rules.py` is embedded as
  an explicit left-to-right, non-overlapping scan with the exact
  greedy/backtracking behaviour of `re.findall` on those patterns
  (`\d` and the case-insensitive letters are taken in their ASCII
  reading).
* The wall-clock `latency_ms` field and the filesystem representation
  of the log are outside the embedding: the feedback store is the list
  of decoded records, and success of the append is an oracle boolean.
-/

namespace ChatbotEval

/-- JSON atom values as produced and consumed by the evaluation
pipeline: judge verdicts hold numeric scores and diagnostic strings. -/
inductive JValue where
  | num (q : ℚ)
  | str (s : String)
deriving DecidableEq

/-- A decoded JSON object: an association list of string keys in
decoding order. -/
abbrev JObject := List (String × JValue)

/-- Python `k in d` membership test on a dict. -/
def jHasKey (o : JObject) (k : String) : Bool :=
  (List.lookup k o).isSome

/-- Python `d.get(k, default)` whose result feeds float arithmetic:
an absent key yields the default, a numeric value yields its number,
and a string value makes the arithmetic consuming it raise `TypeError`
(surfaced here at the access). -/
def jGetNum (o : JObject) (k : String) (d : ℚ) : Except String ℚ :=
  match List.lookup k o with
  | none => .ok d
  | some (.num q) => .ok q
  | some (.str _) => .error "TypeError"

/-- Total variant of `d.get(k, default)` over numbers: the value when
the key holds a number, the default otherwise.  Used in statements;
it agrees with `jGetNum` whenever the latter succeeds. -/
def jGetNumD (o : JObject) (k : String) (d : ℚ) : ℚ :=
  match List.lookup k o with
  | some (.num q) => q
  | _ => d

/-- Python dict assignment `d[k] = v`: replace the value at an existing
key in place, otherwise append the pair (insertion order preserved). -/
def jSet (o : JObject) (k : String) (v : JValue) : JObject :=
  if (List.lookup k o).isSome then
    o.map (fun p => if p.1 = k then (k, v) else p)
  else o ++ [(k, v)]

/-- Round-half-to-even to an integer, the tie-breaking rule Python
documents for `round` and for fixed-point string formatting. -/
def roundHalfEven (q : ℚ) : ℤ :=
  if q - ⌊q⌋ < 1/2 then ⌊q⌋
  else if q - ⌊q⌋ > 1/2 then ⌊q⌋ + 1
  else if ⌊q⌋ % 2 = 0 then ⌊q⌋ else ⌊q⌋ + 1

/-- Python `round(x, 2)`. -/
def round2 (q : ℚ) : ℚ :=
  (roundHalfEven (q * 100) : ℚ) / 100

/-- Python `\s` on the characters relevant here (the ASCII whitespace
class `[ \t\n\r\v\f]`). -/
def pyIsSpace (c : Char) : Bool :=
  c = ' ' || c = Char.ofNat 9 || c = Char.ofNat 10 || c = Char.ofNat 13
    || c = Char.ofNat 11 || c = Char.ofNat 12

/-- The ASCII single-quote character, used to render Python `repr`
forms of strings appearing inside flag messages. -/
def sq : Char := Char.ofNat 39

/-- Python `repr` of a plain string (single-quoted). -/
def pyStrRepr (s : String) : String :=
  String.mk (sq :: s.data ++ [sq])

/-- Python `repr` of a list of strings, e.g. `['CRZ999']`. -/
def pyStrListRepr (xs : List String) : String :=
  "[" ++ String.intercalate ", " (xs.map pyStrRepr) ++ "]"

/-- Plain rendering of a rational, standing in for the Python float
`repr` interpolated into the price flag message.  The exact float
formatting is not modelled; every claim treats flag strings as opaque
(only their presence in the flag list matters). -/
def ratText (q : ℚ) : String :=
  toString q.num ++ "/" ++ toString q.den

/-- Rendering of a list of rationals inside the price flag message. -/
def ratListText (xs : List ℚ) : String :=
  "[" ++ String.intercalate ", " (xs.map ratText) ++ "]"

/-- Python `str.upper()` (ASCII reading), used to canonicalize cruise
identifiers. -/
def canonUpper (s : String) : String :=
  String.mk (s.data.map Char.toUpper)

/-! ### `evaluation/rules.py` — RuleBasedEvaluator

The constructor (lines 11-30) loads the ground-truth CSV (external
data, absent from the repository) and precomputes the canonical
identifier set and the price bounds `(min * 0.9, max * 1.1)`.  The
evaluator is embedded as the record of those precomputed lookups; the
name and city sets are also precomputed by the constructor but are
never read by any check, so they are omitted. -/

/-- The precomputed state of `RuleBasedEvaluator` after construction:
`valid_cruise_ids` (upper-cased), and the derived `PriceBounds`
`price_min`/`price_max`. -/
structure RuleBasedEvaluator where
  valid_cruise_ids : List String
  price_min : ℚ
  price_max : ℚ

/-- Result dict of `RuleBasedEvaluator.evaluate`:
`{"rule_score": ..., "rule_flags": [...]}`. -/
structure RuleResult where
  rule_score : ℚ
  rule_flags : List String
deriving DecidableEq

/-- One match attempt of `re.findall(r'CRZ\d{3}', text, re.IGNORECASE)`
at the head of the character list: the letters `CRZ` case-insensitively
followed by exactly three ASCII digits.  On success the matched
six-character substring (in its original case) is returned; the match
consumes six characters. -/
def idHere (l : List Char) : Option String :=
  match l with
  | c1 :: c2 :: c3 :: d1 :: d2 :: d3 :: _ =>
    if c1.toUpper = 'C' ∧ c2.toUpper = 'R' ∧ c3.toUpper = 'Z'
        ∧ d1.isDigit ∧ d2.isDigit ∧ d3.isDigit then
      some (String.mk [c1, c2, c3, d1, d2, d3])
    else none
  | _ => none

/-- The catalog identifier shape `CRZ\d{3}` (case-insensitive): three
letters upper-casing to `CRZ` followed by exactly three ASCII digits. -/
def idShape (m : List Char) : Bool :=
  match m with
  | [c1, c2, c3, d1, d2, d3] =>
    decide (c1.toUpper = 'C') && decide (c2.toUpper = 'R')
      && decide (c3.toUpper = 'Z') && d1.isDigit && d2.isDigit && d3.isDigit
  | _ => false

/-- Worker for the left-to-right non-overlapping scan performed by
`re.findall` for the pattern `CRZ\d{3}` (case-insensitive): on a match,
continue after its six characters; otherwise advance one character.
The fuel argument only bounds the recursion; one unit is spent per
step, and every step consumes at least one character, so any fuel of
at least the list length yields the full scan. -/
def scanIdsGo : ℕ → List Char → List String
  | 0, _ => []
  | _, [] => []
  | fuel + 1, c :: rest =>
    match idHere (c :: rest) with
    | some t => t :: scanIdsGo fuel (rest.drop 5)
    | none => scanIdsGo fuel rest

/-- `re.findall(r'CRZ\d{3}', text, re.IGNORECASE)` over the text's
characters. -/
def scanIds (l : List Char) : List String :=
  scanIdsGo l.length l

/-- Embeds `check_hallucinated_ids` (rules.py lines 32-48): scan for
`CRZ`-shaped identifiers, upper-case each match, keep the non-members
of the catalog set, and deduplicate (`list(set(...))`; the Python set
order is arbitrary, the embedding keeps one occurrence of each). -/
def RuleBasedEvaluator.check_hallucinated_ids
    (ev : RuleBasedEvaluator) (text : String) : List String :=
  let found := scanIds text.data
  let hallucinated :=
    (found.map canonUpper).filter
      (fun clean_id => !(ev.valid_cruise_ids.contains clean_id))
  hallucinated.dedup

/-- The digit characters taken greedily (at most `k`) from the front
of the list, for `\d{3,5}`. -/
def takeDigits : ℕ → List Char → List Char
  | 0, _ => []
  | _ + 1, [] => []
  | k + 1, c :: rest =>
    if c.isDigit then c :: takeDigits k rest else []

/-- Numeric value of a digit string (the `float(price_str)` of the
source applied to a 3-5 digit token always yields this integer). -/
def charsToNat (ds : List Char) : ℕ :=
  ds.foldl (fun a c => 10 * a + (c.toNat - 48)) 0

/-- Match attempt for the first price alternative `\$\s?(\d{3,5})` at
the head of the list.  Returns the captured number and the total
number of characters consumed. -/
def dollarHere (l : List Char) : Option (ℕ × ℕ) :=
  match l with
  | '$' :: rest =>
    let sp : ℕ := match rest with
      | c :: _ => if pyIsSpace c then 1 else 0
      | [] => 0
    let ds := takeDigits 5 (rest.drop sp)
    if 3 ≤ ds.length then some (charsToNat ds, 1 + sp + ds.length)
    else none
  | _ => none

/-- The currency-marker literal of `(?:USD|dollars)` at the head of the
list; returns the number of characters it consumes. -/
def markerCoreLen (l : List Char) : Option ℕ :=
  if l.take 3 = ['U', 'S', 'D'] then some 3
  else if l.take 7 = ['d', 'o', 'l', 'l', 'a', 'r', 's'] then some 7
  else none

/-- `\s?(?:USD|dollars)`: an optional single whitespace character, then
the marker.  (If a whitespace is present the marker must follow it; a
marker can never itself start with a whitespace character, so regex
backtracking over `\s?` adds no further case.) -/
def markerLen (l : List Char) : Option ℕ :=
  match l with
  | c :: r =>
    if pyIsSpace c then (markerCoreLen r).map (· + 1)
    else markerCoreLen (c :: r)
  | [] => none

/-- Match attempt for the second price alternative with a fixed digit
count `k`: exactly `k` digits, then `\s?(?:USD|dollars)`.  Returns the
captured number and the total number of characters consumed. -/
def usdTryLen (k : ℕ) (l : List Char) : Option (ℕ × ℕ) :=
  let ds := l.take k
  if ds.length = k ∧ ds.all Char.isDigit then
    match markerLen (l.drop k) with
    | some m => some (charsToNat ds, k + m)
    | none => none
  else none

/-- One match attempt of the full price pattern
`\$\s?(\d{3,5})|(\d{3,5})\s?(?:USD|dollars)` at the head of the list:
the left alternative first, then the right alternative with its greedy
`\d{3,5}` backtracking from five digits down to three. -/
def priceHere (l : List Char) : Option (ℕ × ℕ) :=
  match dollarHere l with
  | some r => some r
  | none =>
    match usdTryLen 5 l with
    | some r => some r
    | none =>
      match usdTryLen 4 l with
      | some r => some r
      | none => usdTryLen 3 l

/-- Worker for the left-to-right non-overlapping scan of `re.findall`
for the price pattern: on a match consuming `k` characters continue
after it, otherwise advance one character.  Fuel as in `scanIdsGo`. -/
def scanPricesGo : ℕ → List Char → List ℕ
  | 0, _ => []
  | _, [] => []
  | fuel + 1, c :: rest =>
    match priceHere (c :: rest) with
    | some (n, k) => n :: scanPricesGo fuel (rest.drop (k - 1))
    | none => scanPricesGo fuel rest

/-- `re.findall` over the text's characters for the price pattern
`\$\s?(\d{3,5})|(\d{3,5})\s?(?:USD|dollars)`, yielding the captured
numbers. -/
def scanPrices (l : List Char) : List ℕ :=
  scanPricesGo l.length l

/-- Embeds `check_price_sanity` (rules.py lines 50-70): extract the
price-like numbers, keep those strictly outside
`[price_min, price_max]`, and return `sorted(list(set(...)))`. -/
def RuleBasedEvaluator.check_price_sanity
    (ev : RuleBasedEvaluator) (text : String) : List ℚ :=
  let prices : List ℚ := (scanPrices text.data).map (fun n => (n : ℚ))
  let out_of_range :=
    prices.filter (fun p => decide (p < ev.price_min ∨ p > ev.price_max))
  List.insertionSort (· ≤ ·) out_of_range.dedup

/-- The identifier flag string
`f"HALLUCINATION_RISK: Mentioned invalid IDs {fake_ids}"`. -/
def idFlagMsg (fake_ids : List String) : String :=
  "HALLUCINATION_RISK: Mentioned invalid IDs " ++ pyStrListRepr fake_ids

/-- The price flag string `f"DATA_ERROR: Prices mentioned {bad_prices}
are outside valid range ({self.price_min}-{self.price_max})"` (float
rendering approximated by `ratText`; no claim reads this text). -/
def priceFlagMsg (bad_prices : List ℚ) (pmin pmax : ℚ) : String :=
  "DATA_ERROR: Prices mentioned " ++ ratListText bad_prices
    ++ " are outside valid range (" ++ ratText pmin ++ "-"
    ++ ratText pmax ++ ")"

/-- Embeds `RuleBasedEvaluator.evaluate` (rules.py lines 72-100): run
both checks, emit one flag per triggered check, start the score at 1.0,
subtract 0.5 for identifier hits and 0.2 for price hits, clamp at 0. -/
def RuleBasedEvaluator.evaluate
    (ev : RuleBasedEvaluator) (response_text : String) : RuleResult :=
  let fake_ids := ev.check_hallucinated_ids response_text
  let bad_prices := ev.check_price_sanity response_text
  let flags :=
    (if fake_ids.isEmpty then [] else [idFlagMsg fake_ids])
      ++ (if bad_prices.isEmpty then []
          else [priceFlagMsg bad_prices ev.price_min ev.price_max])
  let score : ℚ := 1
  let score := if fake_ids.isEmpty then score else score - 1/2
  let score := if bad_prices.isEmpty then score else score - 1/5
  { rule_score := max 0 score, rule_flags := flags }

/-! ### `evaluation/metrics.py` — LLMEvaluator

`compute_metrics` builds the judge prompt from `(query, context,
response)`, invokes the injected text-generation callable once, parses
its output with `_parse_json_output`, and—when the parsed dict carries
no `"error"` key—adds the weighted `overall_quality`.  The callable and
the `re.sub` + `json.loads` library pipeline applied to its raw text
are external; a `GenResult` oracle records their combined outcome for
the one call the method makes. -/

/-- Outcome of `json.loads` on the markdown-stripped generator text:
either a decoded object or a `json.JSONDecodeError` (the only
exception `_parse_json_output` catches). -/
inductive JsonOutcome where
  | ok (obj : JObject)
  | decodeError
deriving DecidableEq

/-- Outcome of the single `self.llm_func(prompt)` call: either the
callable raised (carrying its exception), or it returned `text` whose
cleaned form JSON-decodes as `parsed`. -/
inductive GenResult where
  | raise (msg : String)
  | returns (text : String) (parsed : JsonOutcome)
deriving DecidableEq

/-- Embeds `_parse_json_output` (metrics.py lines 52-66): the decoded
dict on success; on `JSONDecodeError` the degraded dict with the
diagnostic `error`, the verbatim `raw_output`, and zeroed
`relevance_score` and `consistency_score` (only those two). -/
def parse_json_output (parsed : JsonOutcome) (text : String) : JObject :=
  match parsed with
  | .ok obj => obj
  | .decodeError =>
    [("error", .str "Failed to parse LLM evaluation"),
     ("raw_output", .str text),
     ("relevance_score", .num 0),
     ("consistency_score", .num 0)]

/-- Embeds `compute_metrics` (metrics.py lines 68-91).  An exception
from the callable is not caught anywhere in the method and propagates.
When the parsed dict has no `"error"` key, `overall_quality` is set to
`round(0.3*relevance + 0.4*consistency + 0.2*completeness +
0.1*clarity, 2)`, each score read with `.get(field, 0)`. -/
def compute_metrics (gen : GenResult) : Except String JObject :=
  match gen with
  | .raise msg => .error msg
  | .returns text parsed =>
    let scores := parse_json_output parsed text
    if jHasKey scores "error" then .ok scores
    else
      match jGetNum scores "relevance_score" 0,
            jGetNum scores "consistency_score" 0,
            jGetNum scores "completeness_score" 0,
            jGetNum scores "clarity_score" 0 with
      | .ok r, .ok c, .ok comp, .ok cl =>
        .ok (jSet scores "overall_quality"
          (.num (round2 (r * (3/10) + c * (2/5) + comp * (1/5) + cl * (1/10)))))
      | .error e, _, _, _ => .error e
      | _, .error e, _, _ => .error e
      | _, _, .error e, _ => .error e
      | _, _, _, .error e => .error e

/-! ### `evaluation/engine.py` — EvaluationEngine -/

/-- The final packet built by `EvaluationEngine.evaluate` (engine.py
lines 62-74).  The wall-clock `latency_ms` field is outside the
embedding. -/
structure EvaluationPacket where
  query : String
  overall_score : ℚ
  status : String
  rule_adherence : ℚ
  llm_quality : ℚ
  components : JObject
  flags : List String
deriving DecidableEq

/-- The flag appended by the coordinator when the judge dict classifies
the hallucination risk as HIGH. -/
def llmFlagMsg : String := "LLM_FLAG: Potential Hallucination detected by Model"

/-- The coordinator's risk check (engine.py line 59):
`metric_result.get("hallucination_risk", "LOW") == "HIGH"`.  The
default and any non-`"HIGH"` or non-string value compare unequal, so
the check holds exactly when the key maps to the string `"HIGH"`. -/
def judgedHighRisk (metric_result : JObject) : Bool :=
  List.lookup "hallucination_risk" metric_result = some (.str "HIGH")

/-- Embeds `EvaluationEngine.evaluate` (engine.py lines 31-79) for one
call: run the rule checker on `response`, run the judge (its oracle
`gen` stands for the callable invoked on the prompt built from
`query`/`context`/`response`), merge scores and flags, build the
packet, then forward it to `FeedbackManager.log_event` — whose
filesystem append either succeeds (`store_ok = true`) or raises; the
engine does not catch a raise, so the packet is only returned when the
append succeeds. -/
def engineEvaluate (ev : RuleBasedEvaluator) (gen : GenResult)
    (store_ok : Bool) (query response context : String) :
    Except String EvaluationPacket :=
  let _ := context
  let rule_result := ev.evaluate response
  match compute_metrics gen with
  | .error e => .error e
  | .ok metric_result =>
    let rule_score := rule_result.rule_score
    match jGetNum metric_result "overall_quality" 0 with
    | .error e => .error e
    | .ok llm_score =>
      let final_score := rule_score * (2/5) + llm_score * (3/5)
      let all_flags := rule_result.rule_flags
          ++ (if judgedHighRisk metric_result then [llmFlagMsg] else [])
      let packet : EvaluationPacket :=
        { query := query
          overall_score := round2 final_score
          status := if final_score > 7/10 then "PASS" else "REVIEW_NEEDED"
          rule_adherence := rule_score
          llm_quality := llm_score
          components := metric_result
          flags := all_flags }
      if store_ok then .ok packet else .error "StoreWriteError"

/-! ### `evaluation/feedback.py` — FeedbackManager -/

/-- One decoded line of the append-only JSONL store, as written by
`log_event` (feedback.py lines 25-37). -/
structure LogEntry where
  timestamp : String
  query : String
  response_preview : String
  metrics : JObject
  rules : RuleResult
deriving DecidableEq

/-- The record `log_event` appends for one evaluation: the metrics and
rule dicts plus a timestamp and the response truncated to its first
100 characters with an ellipsis marker. -/
def mkLogEntry (now query response : String) (metrics : JObject)
    (rule_results : RuleResult) : LogEntry :=
  { timestamp := now
    query := query
    response_preview := String.mk (response.data.take 100) ++ "..."
    metrics := metrics
    rules := rule_results }

/-- Summary dict computed by `generate_report` (feedback.py lines
71-91). -/
structure ReportSummary where
  total_queries : ℕ
  avg_relevance : ℚ
  avg_consistency : ℚ
  avg_clarity : ℚ
  hallucination_rate : String
  tuning_recommendations : List String
deriving DecidableEq

/-- The three possible non-exceptional results of `generate_report`:
the two sentinel strings for an absent or empty store, or a summary. -/
inductive ReportOutcome where
  | noLogs
  | emptyLog
  | summary (s : ReportSummary)
deriving DecidableEq

/-- Numeric readings of the collected values, or `none` as soon as a
string value is present (the `TypeError` of `statistics.mean`). -/
def pyNums : List JValue → Option (List ℚ)
  | [] => some []
  | .num q :: vs => (pyNums vs).map (fun qs => q :: qs)
  | .str _ :: _ => none

/-- Python `statistics.mean` on the collected score values: the sum
divided by the count when every value is numeric, a `TypeError` raise
otherwise.  (Call sites guard against the empty list.) -/
def pyMean (vals : List JValue) : Except String ℚ :=
  match pyNums vals with
  | some qs => .ok (qs.sum / (qs.length : ℚ))
  | none => .error "TypeError"

/-- Python `f"{q:.1f}%"` for the nonnegative percentage value. -/
def fmtPct (q : ℚ) : String :=
  let n := (roundHalfEven (q * 10)).toNat
  toString (n / 10) ++ "." ++ toString (n % 10) ++ "%"

/-- The entries whose judge metrics carry no `"error"` key; only these
contribute to the metric means. -/
def errorFreeEntries (entries : List LogEntry) : List LogEntry :=
  entries.filter (fun e => !(jHasKey e.metrics "error"))

/-- The score values collected for one metric key across the
error-free entries, via `.get(key, 0)`. -/
def collectedScores (entries : List LogEntry) (key : String) : List JValue :=
  (errorFreeEntries entries).map
    (fun e => (List.lookup key e.metrics).getD (.num 0))

/-- The count of entries with at least one rule flag
(`if data["rules"].get("rule_flags"):` — a nonempty list is the only
truthy value the store ever holds there). -/
def hallucinationCount (entries : List LogEntry) : ℕ :=
  (entries.filter (fun e => !(e.rules.rule_flags.isEmpty))).length

/-- The four threshold-triggered recommendation strings (feedback.py
lines 80-88). -/
def tuningSignals (avg_rel avg_con avg_cla rate_frac : ℚ) : List String :=
  (if avg_rel < 7/10 then
    ["CRITICAL: Relevance is low. Review " ++ pyStrRepr "Retrieval"
      ++ " logic (RAG) or Vector DB embeddings."] else [])
  ++ (if avg_con < 4/5 then
    ["WARNING: Consistency is low. Stricter System Prompt constraints needed regarding "
      ++ pyStrRepr "Context Usage" ++ "."] else [])
  ++ (if avg_cla < 3/5 then
    ["ADVICE: Responses are unclear. Tweak the " ++ pyStrRepr "Synthesizer"
      ++ " prompt for better formatting."] else [])
  ++ (if rate_frac > 1/10 then
    ["URGENT: High Hallucination Rate (>10%). Review Ground Truth validation rules."]
    else [])

/-- The per-metric average of `generate_report`:
`statistics.mean(stats[key]) if stats[key] else 0`. -/
def avgOf (vals : List JValue) : Except String ℚ :=
  if vals.isEmpty then .ok 0 else pyMean vals

/-- Embeds `generate_report` (feedback.py lines 39-91).  The store is
`none` when the log file does not exist, otherwise the list of decoded
records in file order.  Each mean is `statistics.mean` over the values
collected from error-free entries, or `0` when none were collected;
the hallucination rate is formatted from
`(hallucination_count / total_events) * 100`. -/
def generate_report (log : Option (List LogEntry)) :
    Except String ReportOutcome :=
  match log with
  | none => .ok .noLogs
  | some entries =>
    let total_events := entries.length
    if total_events = 0 then .ok .emptyLog
    else
      match avgOf (collectedScores entries "relevance_score"),
            avgOf (collectedScores entries "consistency_score"),
            avgOf (collectedScores entries "clarity_score") with
      | .ok avg_rel, .ok avg_con, .ok avg_cla =>
        let rate_frac := (hallucinationCount entries : ℚ) / (total_events : ℚ)
        .ok (.summary
          { total_queries := total_events
            avg_relevance := avg_rel
            avg_consistency := avg_con
            avg_clarity := avg_cla
            hallucination_rate := fmtPct (rate_frac * 100)
            tuning_recommendations :=
              tuningSignals avg_rel avg_con avg_cla rate_frac })
      | .error e, _, _ => .error e
      | _, .error e, _ => .error e
      | _, _, .error e => .error e

/-! ### Concrete fixtures

Small closed inputs used by witness and counterexample theorems: a
rule evaluator with a two-identifier catalog and the price bounds that
a catalog ranging from 850 to 1500 would induce, and a few judge
outputs of the shapes exercised by the source's own `__main__`
demos. -/

/-- A rule evaluator as constructed from a catalog whose identifiers
are CRZ001 and CRZ002 and whose prices span 850 to 1500 (bounds
`850 * 0.9 = 765` and `1500 * 1.1 = 1650`). -/
def evFx : RuleBasedEvaluator :=
  { valid_cruise_ids := ["CRZ001", "CRZ002"]
    price_min := 765
    price_max := 1650 }

/-- A judge JSON object with the component scores of the metrics
module's own demo (0.9 / 0.8 / 0.85 / 0.95). -/
def demoObj : JObject :=
  [("relevance_score", .num (9/10)), ("consistency_score", .num (4/5)),
   ("completeness_score", .num (17/20)), ("clarity_score", .num (19/20)),
   ("reasoning", .str "solid answer")]

/-- A judge JSON object scoring one half on every component, so that
its weighted overall quality is exactly 0.5. -/
def halfObj : JObject :=
  [("relevance_score", .num (1/2)), ("consistency_score", .num (1/2)),
   ("completeness_score", .num (1/2)), ("clarity_score", .num (1/2))]

/-- A judge JSON object that volunteers a HIGH hallucination-risk
classification. -/
def riskObj : JObject :=
  [("relevance_score", .num 1), ("consistency_score", .num 1),
   ("completeness_score", .num 1), ("clarity_score", .num 1),
   ("hallucination_risk", .str "HIGH")]

/-- A clean log entry: full marks from the judge, no rule flags. -/
def entryClean : LogEntry :=
  mkLogEntry "2026-01-01T00:00:00" "q" "resp"
    [("relevance_score", .num 1), ("consistency_score", .num 1),
     ("clarity_score", .num 1)] ⟨1, []⟩

/-- A degraded, rule-flagged log entry: the judge errored and the rule
checker raised one flag. -/
def entryFlagged : LogEntry :=
  mkLogEntry "2026-01-01T00:00:01" "q" "resp"
    [("error", .str "Failed to parse LLM evaluation")]
    ⟨1/2, ["HALLUCINATION_RISK: Mentioned invalid IDs " ++ pyStrListRepr ["CRZ999"]]⟩

/-- A ten-entry log, two of whose entries carry rule flags. -/
def logTen : List LogEntry :=
  List.replicate 8 entryClean ++ List.replicate 2 entryFlagged

/-- A one-entry, all-clean log. -/
def logClean : List LogEntry := [entryClean]

/-- Well-formedness of one value slot: the key is absent or holds a
number (a string there would make the Python arithmetic or
`statistics.mean` consuming it raise `TypeError`). -/
def numOrAbsent (o : JObject) (k : String) : Bool :=
  match List.lookup k o with
  | some (.str _) => false
  | _ => true

/-- Numeric reading of a JSON value, used in statements about logs
whose score slots are numeric (`numOrAbsent`). -/
def jnum : JValue → ℚ
  | .num q => q
  | .str _ => 0

/-- The arithmetic mean, over the error-free entries, of one metric
key read with default 0 — the value `generate_report` computes for a
well-formed store. -/
def metricMean (entries : List LogEntry) (key : String) : ℚ :=
  ((errorFreeEntries entries).map (fun e => jGetNumD e.metrics key 0)).sum
    / ((errorFreeEntries entries).length : ℚ)

/-- Projection of a report result to its total-queries field. -/
def reportTotal (r : Except String ReportOutcome) : Option ℕ :=
  match r with
  | .ok (.summary s) => some s.total_queries
  | _ => none

/-- Projection of a report result to its hallucination-rate string. -/
def reportRate (r : Except String ReportOutcome) : Option String :=
  match r with
  | .ok (.summary s) => some s.hallucination_rate
  | _ => none

/-- Projection of a report result to its relevance mean. -/
def reportAvgRel (r : Except String ReportOutcome) : Option ℚ :=
  match r with
  | .ok (.summary s) => some s.avg_relevance
  | _ => none

/-- The judge dict `halfObj` after the judge has added its overall
quality of one half. -/
def halfObjQ : JObject := halfObj ++ [("overall_quality", .num (1/2))]

/-- The packet produced for query "q", response "hello" (no rule
flags), and judge verdict `halfObjQ`: composite exactly 0.7, hence
REVIEW_NEEDED. -/
def pktBoundary : EvaluationPacket :=
  { query := "q"
    overall_score := 7/10
    status := "REVIEW_NEEDED"
    rule_adherence := 1
    llm_quality := 1/2
    components := halfObjQ
    flags := [] }

/-- The judge dict `riskObj` after the judge has added its overall
quality of one. -/
def riskObjQ : JObject := riskObj ++ [("overall_quality", .num 1)]

/-- The packet produced for query "q", response "hello", and judge
verdict `riskObjQ`: a perfect composite plus the HIGH-risk LLM flag. -/
def pktRisk : EvaluationPacket :=
  { query := "q"
    overall_score := 1
    status := "PASS"
    rule_adherence := 1
    llm_quality := 1
    components := riskObjQ
    flags := [llmFlagMsg] }

/-- A rule evaluator whose catalog contains the truncated identifier
CRZ123, for exercising the truncation behaviour on CRZ1234. -/
def evTrunc : RuleBasedEvaluator :=
  { valid_cruise_ids := ["CRZ123"]
    price_min := 765
    price_max := 1650 }

/-! ## Support lemmas -/

/-- An ASCII digit is unchanged by `Char.toUpper`. -/
theorem digit_toUpper {c : Char} (h : c.isDigit = true) : c.toUpper = c := by
  simp only [Char.isDigit, Bool.and_eq_true, decide_eq_true_eq] at h
  unfold Char.toUpper
  rw [if_neg]
  rintro ⟨h1, _⟩
  have h2 := UInt32.toNat_le_of_le (m := 57) (by norm_num) h.2
  have e : c.toNat = c.val.toNat := rfl
  omega

/-- An ASCII digit never upper-cases to the letter C. -/
theorem digit_toUpper_ne {c : Char} (h : c.isDigit = true) :
    ¬ c.toUpper = 'C' := by
  intro hC
  rw [digit_toUpper h] at hC
  subst hC
  simp at h

/-- A successful numeric `get` determines the total reading. -/
theorem jGetNum_okD {o : JObject} {k : String} {d v : ℚ}
    (h : jGetNum o k d = .ok v) : jGetNumD o k d = v := by
  unfold jGetNum at h
  unfold jGetNumD
  rcases hl : List.lookup k o with _ | v'
  · rw [hl] at h
    exact (Except.ok.injEq _ _).mp h
  · rcases v' with q | s <;> rw [hl] at h
    · exact (Except.ok.injEq _ _).mp h
    · cases h

/-- On a well-formed slot, the numeric `get` succeeds with the total
reading. -/
theorem jGetNum_eq_okD {o : JObject} {k : String} (d : ℚ)
    (h : numOrAbsent o k = true) : jGetNum o k d = .ok (jGetNumD o k d) := by
  unfold numOrAbsent at h
  unfold jGetNum jGetNumD
  match hl : List.lookup k o with
  | none => rfl
  | some (.num q) => rfl
  | some (.str s) => rw [hl] at h; cases h

/-- A getD-read value agrees with the total numeric reading at default
0: either the slot is a number, or both readings give 0. -/
theorem jnum_getD (o : JObject) (k : String) :
    jnum ((List.lookup k o).getD (.num 0)) = jGetNumD o k 0 := by
  unfold jnum jGetNumD
  match hl : List.lookup k o with
  | none => rfl
  | some (.num q) => rfl
  | some (.str s) => rfl

/-- Inversion of a successful identifier match: the list starts with
six characters of the catalog shape and the token is exactly those six
characters. -/
theorem idHere_some_elim {l : List Char} {t : String}
    (h : idHere l = some t) :
    ∃ c1 c2 c3 d1 d2 d3 rest, l = c1 :: c2 :: c3 :: d1 :: d2 :: d3 :: rest
      ∧ t = String.mk [c1, c2, c3, d1, d2, d3]
      ∧ c1.toUpper = 'C' ∧ c2.toUpper = 'R' ∧ c3.toUpper = 'Z'
      ∧ d1.isDigit = true ∧ d2.isDigit = true ∧ d3.isDigit = true := by
  match l with
  | [] => cases h
  | [c1] => cases h
  | [c1, c2] => cases h
  | [c1, c2, c3] => cases h
  | [c1, c2, c3, d1] => cases h
  | [c1, c2, c3, d1, d2] => cases h
  | c1 :: c2 :: c3 :: d1 :: d2 :: d3 :: rest =>
    simp only [idHere] at h
    by_cases hc : c1.toUpper = 'C' ∧ c2.toUpper = 'R' ∧ c3.toUpper = 'Z'
        ∧ d1.isDigit = true ∧ d2.isDigit = true ∧ d3.isDigit = true
    · rw [if_pos hc] at h
      obtain ⟨hc1, hc2, hc3, hd1, hd2, hd3⟩ := hc
      exact ⟨c1, c2, c3, d1, d2, d3, rest, rfl,
        ((Option.some.injEq _ _).mp h).symm, hc1, hc2, hc3, hd1, hd2, hd3⟩
    · rw [if_neg hc] at h
      cases h

/-- Destructuring of the identifier shape predicate. -/
theorem idShape_elim {m : List Char} (h : idShape m = true) :
    ∃ m1 m2 m3 m4 m5 m6, m = [m1, m2, m3, m4, m5, m6]
      ∧ m1.toUpper = 'C' ∧ m2.toUpper = 'R' ∧ m3.toUpper = 'Z'
      ∧ m4.isDigit = true ∧ m5.isDigit = true ∧ m6.isDigit = true := by
  match m with
  | [m1, m2, m3, m4, m5, m6] =>
    unfold idShape at h
    simp only [Bool.and_eq_true, decide_eq_true_eq] at h
    exact ⟨m1, m2, m3, m4, m5, m6, rfl, h.1.1.1.1.1, h.1.1.1.1.2,
      h.1.1.1.2, h.1.1.2, h.1.2, h.2⟩
  | [] => cases h
  | [m1] => cases h
  | [m1, m2] => cases h
  | [m1, m2, m3] => cases h
  | [m1, m2, m3, m4] => cases h
  | [m1, m2, m3, m4, m5] => cases h
  | m1 :: m2 :: m3 :: m4 :: m5 :: m6 :: m7 :: mrest => cases h

/-- A shape-conforming block at the head of the list is matched. -/
theorem idHere_of_shape {m : List Char} (rest : List Char)
    (h : idShape m = true) : idHere (m ++ rest) = some (String.mk m) := by
  obtain ⟨m1, m2, m3, m4, m5, m6, rfl, h1, h2, h3, h4, h5, h6⟩ := idShape_elim h
  unfold idHere
  simp [h1, h2, h3, h4, h5, h6]

/-- A successful identifier match is itself of the catalog shape. -/
theorem idHere_shape {l : List Char} {t : String}
    (h : idHere l = some t) : idShape t.data = true := by
  obtain ⟨c1, c2, c3, d1, d2, d3, rest, rfl, rfl, h1, h2, h3, h4, h5, h6⟩ :=
    idHere_some_elim h
  unfold idShape
  simp [h1, h2, h3, h4, h5, h6]

/-- Soundness of the identifier scan: every reported token occurs in
the text and has the catalog shape. -/
theorem scanIdsGo_sound :
    ∀ (fuel : ℕ) (l : List Char) (t : String), t ∈ scanIdsGo fuel l →
      (∃ p s, l = p ++ t.data ++ s) ∧ idShape t.data = true := by
  intro fuel
  induction fuel with
  | zero =>
    intro l t h
    simp [scanIdsGo] at h
  | succ fuel ih =>
    intro l t h
    match l with
    | [] =>
      simp [scanIdsGo] at h
    | c :: rest =>
      unfold scanIdsGo at h
      rcases hid : idHere (c :: rest) with _ | t'
      · rw [hid] at h
        obtain ⟨⟨p, s, hps⟩, hsh⟩ := ih rest t h
        exact ⟨⟨c :: p, s, by simp [hps]⟩, hsh⟩
      · rw [hid] at h
        rcases List.mem_cons.mp h with rfl | h
        · obtain ⟨c1, c2, c3, d1, d2, d3, r6, heq,ht, _⟩ :=
            idHere_some_elim hid
          refine ⟨⟨[], r6, ?_⟩, idHere_shape hid⟩
          rw [heq, ht]
          simp
        · obtain ⟨⟨p, s, hps⟩, hsh⟩ := ih (rest.drop 5) t h
          obtain ⟨c1, c2, c3, d1, d2, d3, r6, heq, ht, _⟩ :=
            idHere_some_elim hid
          have hrest : rest = c2 :: c3 :: d1 :: d2 :: d3 :: r6 := by
            have := heq
            simp only [List.cons.injEq] at this
            exact this.2
          refine ⟨⟨c :: c2 :: c3 :: d1 :: d2 :: d3 :: p, s, ?_⟩, hsh⟩
          rw [hrest] at hps ⊢
          simp at hps
          simp [hps]

/-- Completeness of the identifier scan: every occurrence of a
shape-conforming six-character block is found.  Two occurrences of the
shape can never overlap (an inner start would put the letter C on an
R, a Z, or a digit), so the non-overlapping `re.findall` scan misses
none. -/
theorem scanIdsGo_complete :
    ∀ (fuel : ℕ) (l : List Char), l.length ≤ fuel →
      ∀ (mid p s : List Char), l = p ++ mid ++ s → idShape mid = true →
        String.mk mid ∈ scanIdsGo fuel l := by
  intro fuel
  induction fuel with
  | zero =>
    intro l hlen mid p s heq hsh
    have : l = [] := List.length_eq_zero.mp (Nat.le_zero.mp hlen)
    subst this
    obtain ⟨m1, m2, m3, m4, m5, m6, rfl, -⟩ := idShape_elim hsh
    simp at heq
  | succ fuel ih =>
    intro l hlen mid p s heq hsh
    match l, heq with
    | [], heq =>
      obtain ⟨m1, m2, m3, m4, m5, m6, rfl, -⟩ := idShape_elim hsh
      simp at heq
    | c :: rest, heq =>
      simp only [scanIdsGo]
      simp only [List.length_cons] at hlen
      obtain ⟨m1, m2, m3, m4, m5, m6, hmid, hm1, hm2, hm3, hm4, hm5, hm6⟩ :=
        idShape_elim hsh
      rcases hid : idHere (c :: rest) with _ | t
      · rcases p with _ | ⟨a1, p'⟩
        · exfalso
          rw [List.nil_append] at heq
          have hsome := idHere_of_shape s hsh
          rw [← heq, hid] at hsome
          cases hsome
        · simp only [List.cons_append, List.cons.injEq] at heq
          exact ih rest (by omega) mid p' s heq.2 hsh
      · obtain ⟨c1, c2, c3, d1, d2, d3, r6, hl6, ht, hc1, hc2, hc3,
          hd1, hd2, hd3⟩ := idHere_some_elim hid
        subst hmid
        show ({ data := [m1, m2, m3, m4, m5, m6] } : String)
          ∈ t :: scanIdsGo fuel (rest.drop 5)
        rcases p with _ | ⟨a1, p⟩
        · -- the occurrence is exactly the match at the head
          rw [List.nil_append] at heq
          rw [heq] at hl6
          simp only [List.cons_append, List.cons.injEq] at hl6
          rw [ht, ← hl6.1, ← hl6.2.1, ← hl6.2.2.1, ← hl6.2.2.2.1,
            ← hl6.2.2.2.2.1, ← hl6.2.2.2.2.2.1]
          exact List.mem_cons_self _ _
        · rcases p with _ | ⟨a2, p⟩
          · exfalso
            rw [heq] at hl6
            simp only [List.cons_append, List.nil_append,
              List.cons.injEq] at hl6
            rw [hl6.2.1] at hm1
            rw [hc2] at hm1
            exact absurd hm1 (by decide)
          · rcases p with _ | ⟨a3, p⟩
            · exfalso
              rw [heq] at hl6
              simp only [List.cons_append, List.nil_append,
                List.cons.injEq] at hl6
              rw [hl6.2.2.1] at hm1
              rw [hc3] at hm1
              exact absurd hm1 (by decide)
            · rcases p with _ | ⟨a4, p⟩
              · exfalso
                rw [heq] at hl6
                simp only [List.cons_append, List.nil_append,
                  List.cons.injEq] at hl6
                rw [hl6.2.2.2.1] at hm1
                exact absurd hm1 (digit_toUpper_ne hd1)
              · rcases p with _ | ⟨a5, p⟩
                · exfalso
                  rw [heq] at hl6
                  simp only [List.cons_append, List.nil_append,
                    List.cons.injEq] at hl6
                  rw [hl6.2.2.2.2.1] at hm1
                  exact absurd hm1 (digit_toUpper_ne hd2)
                · rcases p with _ | ⟨a6, p⟩
                  · exfalso
                    rw [heq] at hl6
                    simp only [List.cons_append, List.nil_append,
                      List.cons.injEq] at hl6
                    rw [hl6.2.2.2.2.2.1] at hm1
                    exact absurd hm1 (digit_toUpper_ne hd3)
                  · -- the occurrence starts after the whole match
                    have hrest : rest = c2 :: c3 :: d1 :: d2 :: d3 :: r6 := by
                      have h6 := hl6
                      simp only [List.cons.injEq] at h6
                      exact h6.2
                    have hr6 : r6 = p ++ [m1, m2, m3, m4, m5, m6] ++ s := by
                      rw [heq] at hl6
                      simp only [List.cons_append, List.cons.injEq] at hl6
                      have h7 := hl6.2.2.2.2.2.2
                      simpa using h7.symm
                    have hdrop : rest.drop 5 = r6 := by
                      rw [hrest]
                      rfl
                    have hlen6 : r6.length ≤ fuel := by
                      have hcl := congrArg List.length hrest
                      simp only [List.length_cons] at hcl
                      omega
                    refine List.mem_cons_of_mem _ ?_
                    rw [hdrop]
                    exact ih r6 hlen6 [m1, m2, m3, m4, m5, m6] p s hr6 hsh

/-- A run of digits contains no identifier match: the scan of an
all-digit list reports nothing. -/
theorem scanIdsGo_digits :
    ∀ (fuel : ℕ) (l : List Char), (∀ c ∈ l, c.isDigit = true) →
      scanIdsGo fuel l = [] := by
  intro fuel
  induction fuel with
  | zero => intro l _; cases l <;> rfl
  | succ fuel ih =>
    intro l hdig
    match l with
    | [] => rfl
    | c :: rest =>
      simp only [scanIdsGo]
      rcases hid : idHere (c :: rest) with _ | t
      · exact ih rest (fun c hc => hdig c (List.mem_cons_of_mem _ hc))
      · exfalso
        obtain ⟨c1, _, _, _, _, _, _, hl6, _, hc1, -⟩ := idHere_some_elim hid
        have : c1 ∈ c :: rest := by rw [hl6]; exact List.mem_cons_self _ _
        exact absurd hc1 (digit_toUpper_ne (hdig c1 this))

/-- Membership in the hallucinated-identifier result, phrased over the
scan. -/
theorem mem_check_hallucinated_ids (ev : RuleBasedEvaluator)
    (text : String) (x : String) :
    x ∈ ev.check_hallucinated_ids text
      ↔ (∃ m ∈ scanIds text.data, canonUpper m = x)
          ∧ x ∉ ev.valid_cruise_ids := by
  unfold RuleBasedEvaluator.check_hallucinated_ids
  rw [List.mem_dedup, List.mem_filter]
  simp only [List.mem_map, List.contains, Bool.not_eq_true']
  constructor
  · rintro ⟨⟨m, hm, rfl⟩, hc⟩
    refine ⟨⟨m, hm, rfl⟩, fun hmem => ?_⟩
    rw [List.elem_iff.mpr hmem] at hc
    cases hc
  · rintro ⟨⟨m, hm, rfl⟩, hnot⟩
    refine ⟨⟨m, hm, rfl⟩, ?_⟩
    rw [← Bool.not_eq_true]
    intro he
    exact hnot (List.elem_iff.mp he)

/-! ## Claim theorems -/

/-- C6: the identifier check reports exactly the set (duplicates
removed) of canonicalized catalog-shaped identifier substrings of the
text (the `CRZ` alphabetic head matched case-insensitively followed by
exactly three digits) that are not members of the catalog's canonical
identifier set; an in-catalog identifier embedded in the text is never
reported, regardless of letter case, and a text with no catalog-shape
substring yields an empty result. -/
theorem check_hallucinated_ids_spec (ev : RuleBasedEvaluator)
    (text : String) :
    (∀ x : String,
        x ∈ ev.check_hallucinated_ids text
          ↔ ∃ mid : List Char, (∃ p s, text.data = p ++ mid ++ s)
              ∧ idShape mid = true
              ∧ String.mk (mid.map Char.toUpper) = x
              ∧ x ∉ ev.valid_cruise_ids)
    ∧ (∀ mid p s, text.data = p ++ mid ++ s → idShape mid = true →
        String.mk (mid.map Char.toUpper) ∈ ev.valid_cruise_ids →
        String.mk (mid.map Char.toUpper) ∉ ev.check_hallucinated_ids text)
    ∧ ((∀ mid p s, text.data = p ++ mid ++ s → idShape mid = false) →
        ev.check_hallucinated_ids text = []) := by
  have hiff : ∀ x : String,
      x ∈ ev.check_hallucinated_ids text
        ↔ ∃ mid : List Char, (∃ p s, text.data = p ++ mid ++ s)
            ∧ idShape mid = true
            ∧ String.mk (mid.map Char.toUpper) = x
            ∧ x ∉ ev.valid_cruise_ids := by
    intro x
    rw [mem_check_hallucinated_ids]
    constructor
    · rintro ⟨⟨m, hm, rfl⟩, hnot⟩
      obtain ⟨⟨p, s, hps⟩, hsh⟩ := scanIdsGo_sound text.data.length text.data m hm
      exact ⟨m.data, ⟨p, s, hps⟩, hsh, rfl, hnot⟩
    · rintro ⟨mid, ⟨p, s, hps⟩, hsh, rfl, hnot⟩
      refine ⟨⟨String.mk mid, ?_, rfl⟩, hnot⟩
      exact scanIdsGo_complete text.data.length text.data le_rfl mid p s hps hsh
  refine ⟨hiff, ?_, ?_⟩
  · intro mid p s hps hsh hval hmem
    obtain ⟨-, -, -, -, hnot⟩ := (hiff _).mp hmem
    exact hnot hval
  · intro hno
    rcases hne : ev.check_hallucinated_ids text with _ | ⟨x, xs⟩
    · rfl
    · exfalso
      have hx : x ∈ ev.check_hallucinated_ids text := by
        rw [hne]; exact List.mem_cons_self _ _
      obtain ⟨mid, ⟨p, s, hps⟩, hsh, -, -⟩ := (hiff x).mp hx
      rw [hno mid p s hps] at hsh
      cases hsh

/-- Witness for C6: in "Book CRZ001 and crz999 now" the out-of-catalog
crz999 is reported (canonicalized), and the in-catalog CRZ001 is not. -/
theorem check_hallucinated_ids_spec_witness :
    "CRZ999" ∈ evFx.check_hallucinated_ids "Book CRZ001 and crz999 now"
    ∧ "CRZ001" ∉ evFx.check_hallucinated_ids "Book CRZ001 and crz999 now" := by
  have h := check_hallucinated_ids_spec evFx "Book CRZ001 and crz999 now"
  constructor
  · exact (h.1 "CRZ999").mpr ⟨"crz999".data,
      ⟨"Book CRZ001 and ".data, " now".data, by decide⟩,
      by decide, by decide, by decide⟩
  · exact h.2.1 "CRZ001".data "Book ".data " and crz999 now".data
      (by decide) (by decide) (by decide)

/-- C10: in any text containing the prefix CRZ followed by more than
three consecutive digits, the scan matches only the prefix plus the
first three digits, so the occurrence is canonicalized and
membership-tested as the truncated three-digit identifier: that
truncated identifier is reported exactly when it is absent from the
catalog, and the full longer token is never itself reported. -/
theorem truncated_identifier_spec (ev : RuleBasedEvaluator)
    (text : String) (ds p s : List Char)
    (hdig : ∀ c ∈ ds, c.isDigit = true) (hlen : 3 < ds.length)
    (hocc : text.data = p ++ ('C' :: 'R' :: 'Z' :: ds) ++ s) :
    (String.mk ('C' :: 'R' :: 'Z' :: ds.take 3)
        ∈ ev.check_hallucinated_ids text
      ↔ String.mk ('C' :: 'R' :: 'Z' :: ds.take 3)
        ∉ ev.valid_cruise_ids)
    ∧ String.mk ('C' :: 'R' :: 'Z' :: ds)
        ∉ ev.check_hallucinated_ids text := by
  match ds, hlen, hdig, hocc with
  | d1 :: d2 :: d3 :: rest, hlen, hdig, hocc =>
    have hd1 : d1.isDigit = true := hdig d1 (by simp)
    have hd2 : d2.isDigit = true := hdig d2 (by simp)
    have hd3 : d3.isDigit = true := hdig d3 (by simp)
    have hshape : idShape ['C', 'R', 'Z', d1, d2, d3] = true := by
      simp only [idShape, hd1, hd2, hd3]
      decide
    have hcanon : canonUpper (String.mk ['C', 'R', 'Z', d1, d2, d3])
        = String.mk ['C', 'R', 'Z', d1, d2, d3] := by
      unfold canonUpper
      simp only [List.map_cons, List.map_nil]
      rw [show ('C').toUpper = 'C' from by decide,
        show ('R').toUpper = 'R' from by decide,
        show ('Z').toUpper = 'Z' from by decide,
        digit_toUpper hd1, digit_toUpper hd2, digit_toUpper hd3]
    have hocc6 : text.data
        = p ++ ['C', 'R', 'Z', d1, d2, d3] ++ (rest ++ s) := by
      rw [hocc]
      simp
    constructor
    · constructor
      · intro hmem
        exact ((mem_check_hallucinated_ids ev text _).mp hmem).2
      · intro hnot
        refine (mem_check_hallucinated_ids ev text _).mpr
          ⟨⟨String.mk ['C', 'R', 'Z', d1, d2, d3], ?_, ?_⟩, hnot⟩
        · exact scanIdsGo_complete text.data.length text.data le_rfl
            ['C', 'R', 'Z', d1, d2, d3] p (rest ++ s) hocc6 hshape
        · exact hcanon
    · intro hmem
      obtain ⟨⟨m, hscan, hcan⟩, -⟩ :=
        (mem_check_hallucinated_ids ev text _).mp hmem
      obtain ⟨-, hsh⟩ := scanIdsGo_sound text.data.length text.data m hscan
      obtain ⟨m1, m2, m3, m4, m5, m6, hm, -⟩ := idShape_elim hsh
      have hdata : m.data.map Char.toUpper
          = 'C' :: 'R' :: 'Z' :: d1 :: d2 :: d3 :: rest :=
        congrArg String.data hcan
      have hlist := congrArg List.length hdata
      rw [List.length_map, hm] at hlist
      simp only [List.length_cons, List.length_nil] at hlist
      simp only [List.length_cons] at hlen
      omega

/-- Witness for C10: in "Book CRZ1234 now" the token is truncated to
CRZ123; it is reported against the catalog without CRZ123, silently
accepted by the catalog containing CRZ123, and the full token CRZ1234
is never reported. -/
theorem truncated_identifier_spec_witness :
    "CRZ123" ∈ evFx.check_hallucinated_ids "Book CRZ1234 now"
    ∧ "CRZ123" ∉ evTrunc.check_hallucinated_ids "Book CRZ1234 now"
    ∧ "CRZ1234" ∉ evFx.check_hallucinated_ids "Book CRZ1234 now" := by
  have h1 := truncated_identifier_spec evFx "Book CRZ1234 now" "1234".data
    "Book ".data " now".data (by decide) (by decide) (by decide)
  have h2 := truncated_identifier_spec evTrunc "Book CRZ1234 now" "1234".data
    "Book ".data " now".data (by decide) (by decide) (by decide)
  refine ⟨?_, ?_, ?_⟩
  · exact h1.1.mpr (by decide)
  · intro hmem
    exact (h2.1.mp hmem) (by decide)
  · exact h1.2

/-- C4: the rule score starts at 1.0, loses 0.5 exactly when a
hallucinated identifier was found and 0.2 exactly when an out-of-range
price was found, and is clamped at a floor of 0.0; it is 1.0 with no
flag, 0.3 with both flags, and never negative. -/
theorem rule_score_formula (ev : RuleBasedEvaluator) (text : String) :
    (ev.evaluate text).rule_score
      = max 0 (1 - (if ev.check_hallucinated_ids text = [] then 0 else 1/2)
                 - (if ev.check_price_sanity text = [] then 0 else 1/5))
    ∧ 0 ≤ (ev.evaluate text).rule_score
    ∧ (ev.check_hallucinated_ids text = [] ∧ ev.check_price_sanity text = []
        → (ev.evaluate text).rule_score = 1)
    ∧ (ev.check_hallucinated_ids text ≠ [] ∧ ev.check_price_sanity text ≠ []
        → (ev.evaluate text).rule_score = 3/10) := by
  have hform : (ev.evaluate text).rule_score
      = max 0 (1 - (if ev.check_hallucinated_ids text = [] then 0 else 1/2)
                 - (if ev.check_price_sanity text = [] then 0 else 1/5)) := by
    unfold RuleBasedEvaluator.evaluate
    rcases h1 : ev.check_hallucinated_ids text with _ | ⟨a, as⟩ <;>
      rcases h2 : ev.check_price_sanity text with _ | ⟨b, bs⟩ <;>
      simp [List.isEmpty]
  refine ⟨hform, ?_, ?_, ?_⟩
  · rw [hform]
    exact le_max_left 0 _
  · rintro ⟨h1, h2⟩
    rw [hform, if_pos h1, if_pos h2]
    norm_num
  · rintro ⟨h1, h2⟩
    rw [hform, if_neg h1, if_neg h2]
    norm_num

/-- Witness for C4: on "hello" neither check fires and the rule score
is exactly 1.0; on a response with a fake identifier and an absurd
price both checks fire and the score is exactly 0.3. -/
theorem rule_score_formula_witness :
    (evFx.evaluate "hello").rule_score = 1
    ∧ (evFx.evaluate "Book the Galaxy Cruise (CRZ999) for $99999.").rule_score
        = 3/10 := by
  constructor
  · exact (rule_score_formula evFx "hello").2.2.1 ⟨by decide, by decide⟩
  · exact (rule_score_formula evFx
      "Book the Galaxy Cruise (CRZ999) for $99999.").2.2.2
      ⟨by decide, by decide⟩

/-- C7: the price check returns the sorted, deduplicated set of
exactly those extracted numbers that fall strictly outside
`[price_min, price_max]`; a number strictly between the bounds is
never flagged and one strictly outside always is. -/
theorem check_price_sanity_spec (ev : RuleBasedEvaluator) (text : String) :
    (∀ p : ℚ, p ∈ ev.check_price_sanity text
        ↔ p ∈ (scanPrices text.data).map (fun n => (n : ℚ))
            ∧ (p < ev.price_min ∨ p > ev.price_max))
    ∧ List.Sorted (· ≤ ·) (ev.check_price_sanity text)
    ∧ (ev.check_price_sanity text).Nodup
    ∧ (∀ p : ℚ, p ∈ (scanPrices text.data).map (fun n => (n : ℚ)) →
        ev.price_min < p → p < ev.price_max →
        p ∉ ev.check_price_sanity text)
    ∧ (∀ p : ℚ, p ∈ (scanPrices text.data).map (fun n => (n : ℚ)) →
        (p < ev.price_min ∨ p > ev.price_max) →
        p ∈ ev.check_price_sanity text) := by
  have hmem : ∀ p : ℚ, p ∈ ev.check_price_sanity text
      ↔ p ∈ (scanPrices text.data).map (fun n => (n : ℚ))
          ∧ (p < ev.price_min ∨ p > ev.price_max) := by
    intro p
    unfold RuleBasedEvaluator.check_price_sanity
    rw [List.mem_insertionSort, List.mem_dedup, List.mem_filter]
    simp only [decide_eq_true_eq]
  refine ⟨hmem, ?_, ?_, ?_, ?_⟩
  · unfold RuleBasedEvaluator.check_price_sanity
    exact List.sorted_insertionSort _ _
  · unfold RuleBasedEvaluator.check_price_sanity
    exact ((List.perm_insertionSort _ _).nodup_iff).mpr (List.nodup_dedup _)
  · intro p _ h1 h2 hmem'
    rcases ((hmem p).mp hmem').2 with h | h
    · exact absurd h1 (not_lt.mpr h.le)
    · exact absurd h2 (not_lt.mpr h.le)
  · intro p hp hout
    exact (hmem p).mpr ⟨hp, hout⟩

/-- Witness for C7: in "only $100 or $850 vs 99999 USD" against bounds
[765, 1650], the too-low 100 and too-high 99999 are flagged while the
in-range 850 is not. -/
theorem check_price_sanity_spec_witness :
    ((100 : ℚ) ∈ evFx.check_price_sanity "only $100 or $850 vs 99999 USD")
    ∧ ((99999 : ℚ) ∈ evFx.check_price_sanity "only $100 or $850 vs 99999 USD")
    ∧ ((850 : ℚ) ∉ evFx.check_price_sanity "only $100 or $850 vs 99999 USD") := by
  have h := check_price_sanity_spec evFx "only $100 or $850 vs 99999 USD"
  refine ⟨?_, ?_, ?_⟩
  · exact (h.1 100).mpr ⟨by decide, Or.inl (by decide)⟩
  · exact (h.1 99999).mpr ⟨by decide, Or.inr (by decide)⟩
  · exact h.2.2.2.1 850 (by decide) (by decide) (by decide)

/-- C2 (amended): when the generator returns text whose cleaned form
fails JSON decoding, `compute_metrics` returns (never raises) the
degraded verdict with the diagnostic `error`, the verbatim
`raw_output`, and `relevance_score` and `consistency_score` defaulted
to 0.0 — `completeness_score` and `clarity_score` are absent — and no
`overall_quality` key; an exception raised by the generator callable
itself is not caught and propagates out of `compute_metrics`. -/
theorem compute_metrics_degraded_spec :
    (∀ text : String, compute_metrics (.returns text .decodeError)
        = .ok [("error", .str "Failed to parse LLM evaluation"),
               ("raw_output", .str text),
               ("relevance_score", .num 0),
               ("consistency_score", .num 0)])
    ∧ (∀ msg : String, compute_metrics (.raise msg) = .error msg) :=
  ⟨fun _ => rfl, fun _ => rfl⟩

/-- Witness for C2 (amended): the degraded verdict for the unparseable
output "oops" and the propagated raise "boom", concretely. -/
theorem compute_metrics_degraded_spec_witness :
    compute_metrics (.returns "oops" .decodeError)
      = .ok [("error", .str "Failed to parse LLM evaluation"),
             ("raw_output", .str "oops"),
             ("relevance_score", .num 0),
             ("consistency_score", .num 0)]
    ∧ compute_metrics (.raise "boom") = .error "boom" :=
  ⟨compute_metrics_degraded_spec.1 "oops", compute_metrics_degraded_spec.2 "boom"⟩

/-- Counterexample to C2 as stated: a raise of the injected callable
propagates out of `compute_metrics` (it is not converted into a
verdict), and the degraded verdict for unparseable output carries no
`completeness_score` and no `clarity_score` key at all, rather than
defaulting all four scores to 0.0. -/
theorem compute_metrics_c2_counterexample :
    compute_metrics (.raise "ConnectionError") = .error "ConnectionError"
    ∧ (compute_metrics (.returns "not json" .decodeError)).map
        (fun o => jHasKey o "completeness_score") = .ok false
    ∧ (compute_metrics (.returns "not json" .decodeError)).map
        (fun o => jHasKey o "clarity_score") = .ok false :=
  ⟨rfl, rfl, rfl⟩

/-- The tied half-cent case of the demo scores: 85.5 rounds to 86. -/
theorem roundHalfEven_171_half : roundHalfEven (171/2 : ℚ) = 86 := by
  unfold roundHalfEven
  rw [show ⌊(171/2 : ℚ)⌋ = 85 from by norm_num [Int.floor_eq_iff]]
  rw [if_neg (by norm_num), if_neg (by norm_num), if_neg (by norm_num)]
  norm_num

/-- C5 (amended): whenever the parse succeeds on an object with no
`error` key and numeric-or-absent score fields, `overall_quality` is
set to `round(0.3*relevance + 0.4*consistency + 0.2*completeness +
0.1*clarity, 2)`, missing fields defaulting to 0. -/
theorem compute_metrics_overall_quality (text : String) (obj : JObject)
    (herr : List.lookup "error" obj = none)
    (h1 : numOrAbsent obj "relevance_score" = true)
    (h2 : numOrAbsent obj "consistency_score" = true)
    (h3 : numOrAbsent obj "completeness_score" = true)
    (h4 : numOrAbsent obj "clarity_score" = true) :
    compute_metrics (.returns text (.ok obj))
      = .ok (jSet obj "overall_quality" (.num (round2
          (jGetNumD obj "relevance_score" 0 * (3/10)
            + jGetNumD obj "consistency_score" 0 * (2/5)
            + jGetNumD obj "completeness_score" 0 * (1/5)
            + jGetNumD obj "clarity_score" 0 * (1/10))))) := by
  simp only [compute_metrics, parse_json_output]
  rw [show jHasKey obj "error" = false from by unfold jHasKey; rw [herr]; rfl]
  rw [jGetNum_eq_okD 0 h1, jGetNum_eq_okD 0 h2, jGetNum_eq_okD 0 h3,
    jGetNum_eq_okD 0 h4]
  rfl

/-- Witness for C5 (amended): the demo scores 0.9/0.8/0.85/0.95 give
`overall_quality = 0.86`. -/
theorem compute_metrics_overall_quality_witness :
    (compute_metrics (.returns "x" (.ok demoObj))).map
      (fun o => List.lookup "overall_quality" o)
      = .ok (some (.num (43/50))) := by
  have hval : round2
      (jGetNumD demoObj "relevance_score" 0 * (3/10)
        + jGetNumD demoObj "consistency_score" 0 * (2/5)
        + jGetNumD demoObj "completeness_score" 0 * (1/5)
        + jGetNumD demoObj "clarity_score" 0 * (1/10)) = 43/50 := by
    rw [show jGetNumD demoObj "relevance_score" 0 = 9/10 from rfl,
      show jGetNumD demoObj "consistency_score" 0 = 4/5 from rfl,
      show jGetNumD demoObj "completeness_score" 0 = 17/20 from rfl,
      show jGetNumD demoObj "clarity_score" 0 = 19/20 from rfl]
    unfold round2
    rw [show ((9/10 * (3/10) + 4/5 * (2/5) + 17/20 * (1/5)
        + 19/20 * (1/10)) * 100 : ℚ) = 171/2 from by norm_num]
    rw [roundHalfEven_171_half]
    norm_num
  have h := compute_metrics_overall_quality "x" demoObj rfl rfl rfl rfl rfl
  rw [hval] at h
  rw [h]
  rfl

/-- Counterexample to C5 as stated: on relevance 0.9, consistency 0.8,
completeness 0.85, clarity 0.95 the code computes overall_quality
0.86 (the weighted sum 0.855 rounds up), not the 0.85 the claim
asserts. -/
theorem compute_metrics_c5_counterexample :
    (compute_metrics (.returns "x" (.ok demoObj))).map
      (fun o => List.lookup "overall_quality" o)
      = .ok (some (.num (43/50)))
    ∧ (43/50 : ℚ) ≠ 17/20 := by
  constructor
  · have hstep : (compute_metrics (.returns "x" (.ok demoObj))).map
        (fun o => List.lookup "overall_quality" o)
        = .ok (some (.num (round2 (9/10 * (3/10) + 4/5 * (2/5)
            + 17/20 * (1/5) + 19/20 * (1/10))))) := rfl
    rw [hstep]
    rw [show round2 (9/10 * (3/10) + 4/5 * (2/5) + 17/20 * (1/5)
        + 19/20 * (1/10) : ℚ) = 43/50 from by
      unfold round2
      rw [show ((9/10 * (3/10) + 4/5 * (2/5) + 17/20 * (1/5)
          + 19/20 * (1/10)) * 100 : ℚ) = 171/2 from by norm_num]
      rw [roundHalfEven_171_half]
      norm_num]
  · norm_num

/-- C1: any packet the coordinator returns has composite score
`0.4 * rule_score + 0.6 * llm_overall_quality` (the judge quality read
as 0.0 when its verdict has no `overall_quality` key), status PASS
exactly when the composite strictly exceeds 0.7 — a composite of
exactly 0.7 gives REVIEW_NEEDED — and `overall_score` equal to the
composite rounded to two decimals. -/
theorem composite_score_and_status (ev : RuleBasedEvaluator)
    (gen : GenResult) (store_ok : Bool) (q r c : String)
    (pkt : EvaluationPacket)
    (h : engineEvaluate ev gen store_ok q r c = .ok pkt) :
    pkt.overall_score = round2 ((ev.evaluate r).rule_score * (2/5)
        + jGetNumD pkt.components "overall_quality" 0 * (3/5))
    ∧ (pkt.status = "PASS" ↔ 7/10 < (ev.evaluate r).rule_score * (2/5)
        + jGetNumD pkt.components "overall_quality" 0 * (3/5))
    ∧ ((ev.evaluate r).rule_score * (2/5)
          + jGetNumD pkt.components "overall_quality" 0 * (3/5) = 7/10
        → pkt.status = "REVIEW_NEEDED")
    ∧ (List.lookup "overall_quality" pkt.components = none
        → jGetNumD pkt.components "overall_quality" 0 = 0) := by
  unfold engineEvaluate at h
  rcases hm : compute_metrics gen with e | m
  · simp only [hm] at h
    cases h
  · simp only [hm] at h
    rcases hg : jGetNum m "overall_quality" 0 with e | ls
    · simp only [hg] at h
      cases h
    · simp only [hg] at h
      rcases store_ok with _ | _
      · simp at h
      · rw [if_pos rfl] at h
        have hpkt := ((Except.ok.injEq _ _).mp h)
        subst hpkt
        have hD : jGetNumD m "overall_quality" 0 = ls := jGetNum_okD hg
        refine ⟨?_, ?_, ?_, ?_⟩
        · simp only [hD]
        · simp only [hD]
          by_cases hf : 7/10 < (ev.evaluate r).rule_score * (2/5) + ls * (3/5)
          · rw [if_pos hf]
            simp [hf]
          · rw [if_neg hf]
            simp [hf]
        · intro heq
          simp only [hD] at heq
          simp only [heq]
          rw [if_neg (by norm_num)]
        · intro hl
          unfold jGetNumD
          rw [hl]

/-- C9: any packet the coordinator returns carries the rule checker's
flags, with the LLM hallucination flag appended exactly when the judge
dict classifies `hallucination_risk` as the string HIGH
(`metric_result.get("hallucination_risk", "LOW") == "HIGH"`); in every
other case — including a degraded parse, whose dict never holds that
key — the flags are exactly the rule flags, and when the generator
itself raises no packet is produced at all. -/
theorem flags_merge_spec (ev : RuleBasedEvaluator) (gen : GenResult)
    (store_ok : Bool) (q r c : String) (pkt : EvaluationPacket)
    (h : engineEvaluate ev gen store_ok q r c = .ok pkt) :
    pkt.flags = (ev.evaluate r).rule_flags
        ++ (if judgedHighRisk pkt.components then [llmFlagMsg] else [])
    ∧ (judgedHighRisk pkt.components = false
        → pkt.flags = (ev.evaluate r).rule_flags)
    ∧ (∀ msg, gen ≠ .raise msg) := by
  unfold engineEvaluate at h
  rcases hm : compute_metrics gen with e | m
  · simp only [hm] at h
    cases h
  · simp only [hm] at h
    rcases hg : jGetNum m "overall_quality" 0 with e | ls
    · simp only [hg] at h
      cases h
    · simp only [hg] at h
      rcases store_ok with _ | _
      · simp at h
      · rw [if_pos rfl] at h
        have hpkt := ((Except.ok.injEq _ _).mp h)
        subst hpkt
        refine ⟨rfl, ?_, ?_⟩
        · intro hrisk
          simp only [hrisk, Bool.false_eq_true, if_false, List.append_nil]
        · intro msg hraise
          rw [hraise] at hm
          cases hm

/-- C3 (amended): when both checkers succeed, the coordinator returns
its packet exactly when the feedback append succeeds; `log_event` is
called with no exception handling, so an append failure propagates to
the caller in place of the computed packet. -/
theorem store_failure_masks_packet (ev : RuleBasedEvaluator)
    (gen : GenResult) (q r c : String) (m : JObject)
    (hm : compute_metrics gen = .ok m)
    (hq : numOrAbsent m "overall_quality" = true) :
    (engineEvaluate ev gen true q r c).isOk = true
    ∧ engineEvaluate ev gen false q r c = .error "StoreWriteError" := by
  unfold engineEvaluate
  simp only [hm]
  rw [jGetNum_eq_okD 0 hq]
  exact ⟨rfl, rfl⟩

/-- Witness for C3 (amended): with a well-formed judge verdict, the
same evaluation returns a packet when the append succeeds and the
store error when it fails. -/
theorem store_failure_masks_packet_witness :
    (engineEvaluate evFx (.returns "x" (.ok halfObj)) true "q" "hello" "").isOk
      = true
    ∧ engineEvaluate evFx (.returns "x" (.ok halfObj)) false "q" "hello" ""
      = .error "StoreWriteError" :=
  store_failure_masks_packet evFx (.returns "x" (.ok halfObj)) "q" "hello" ""
    _ rfl (by decide)

/-- Counterexample to C3 as stated: a failing append is fatal — both
checkers succeed (the judge verdict parses), yet `evaluate` yields the
store exception instead of the computed packet. -/
theorem c3_counterexample :
    (compute_metrics (.returns "x" (.ok halfObj))).isOk = true
    ∧ (engineEvaluate evFx (.returns "x" (.ok halfObj)) false "q" "hello" "").isOk
      = false :=
  ⟨rfl, rfl⟩

/-- Rounding an integer value is the identity. -/
theorem roundHalfEven_intCast (z : ℤ) : roundHalfEven (z : ℚ) = z := by
  unfold roundHalfEven
  rw [Int.floor_intCast]
  rw [if_pos (by norm_num)]

/-- A value with at most two decimal places is unchanged by
`round(x, 2)`. -/
theorem round2_eq_self {q : ℚ} (z : ℤ) (h : q * 100 = (z : ℚ)) :
    round2 q = q := by
  unfold round2
  rw [h, roundHalfEven_intCast]
  rw [div_eq_iff (by norm_num : (100 : ℚ) ≠ 0)]
  exact h.symm

/-- The packet computed for the boundary fixture: rule score 1.0 and
judge quality 0.5 make the composite exactly 0.7. -/
theorem engineEvaluate_halfObj :
    engineEvaluate evFx (.returns "x" (.ok halfObj)) true "q" "hello" ""
      = .ok pktBoundary := by
  have hr2 : round2 (1/2 * (3/10) + 1/2 * (2/5) + 1/2 * (1/5)
      + 1/2 * (1/10) : ℚ) = 1/2 := by
    rw [show (1/2 * (3/10) + 1/2 * (2/5) + 1/2 * (1/5)
        + 1/2 * (1/10) : ℚ) = 1/2 from by norm_num]
    exact round2_eq_self 50 (by norm_num)
  have hcm : compute_metrics (.returns "x" (.ok halfObj))
      = .ok (halfObj ++ [("overall_quality", JValue.num (1/2))]) := by
    have h0 : compute_metrics (.returns "x" (.ok halfObj))
        = .ok (halfObj ++ [("overall_quality", JValue.num (round2
            (1/2 * (3/10) + 1/2 * (2/5) + 1/2 * (1/5)
              + 1/2 * (1/10))))]) := rfl
    rw [h0, hr2]
  unfold engineEvaluate
  simp only [hcm,
    show jGetNum (halfObj ++ [("overall_quality", JValue.num (1/2))])
        "overall_quality" 0 = .ok (1/2) from rfl]
  rw [show (evFx.evaluate "hello").rule_score = 1 from by decide]
  rw [show (evFx.evaluate "hello").rule_flags = [] from by decide]
  rw [show judgedHighRisk (halfObj ++ [("overall_quality", JValue.num (1/2))])
      = false from rfl]
  rw [show (1 * (2/5) + 1/2 * (3/5) : ℚ) = 7/10 from by norm_num]
  rw [show round2 (7/10 : ℚ) = 7/10 from round2_eq_self 70 (by norm_num)]
  rw [if_neg (show ¬((7/10 : ℚ) > 7/10) from by norm_num)]
  rfl

/-- Witness for C1: at rule score 1.0 and judge quality 0.5 the
composite is exactly 0.7 and the returned packet reads
REVIEW_NEEDED with overall score 0.70. -/
theorem composite_score_and_status_witness :
    (engineEvaluate evFx (.returns "x" (.ok halfObj)) true "q" "hello" "").map
      (fun p => (p.overall_score, p.status)) = .ok (7/10, "REVIEW_NEEDED") := by
  have h := composite_score_and_status evFx (.returns "x" (.ok halfObj)) true
    "q" "hello" "" pktBoundary engineEvaluate_halfObj
  have hcomp : (evFx.evaluate "hello").rule_score * (2/5)
      + jGetNumD pktBoundary.components "overall_quality" 0 * (3/5) = 7/10 := by
    rw [show (evFx.evaluate "hello").rule_score = 1 from by decide,
      show jGetNumD pktBoundary.components "overall_quality" 0 = 1/2 from rfl]
    norm_num
  have hov := h.1
  rw [hcomp] at hov
  rw [round2_eq_self 70 (by norm_num)] at hov
  have hst := h.2.2.1 hcomp
  rw [engineEvaluate_halfObj]
  simp only [Except.map, Except.ok.injEq]
  rw [hov, hst]

/-- The packet computed for the HIGH-risk fixture: perfect scores and
a volunteered HIGH hallucination-risk classification. -/
theorem engineEvaluate_riskObj :
    engineEvaluate evFx (.returns "x" (.ok riskObj)) true "q" "hello" ""
      = .ok pktRisk := by
  have hr2 : round2 (1 * (3/10) + 1 * (2/5) + 1 * (1/5)
      + 1 * (1/10) : ℚ) = 1 := by
    rw [show (1 * (3/10) + 1 * (2/5) + 1 * (1/5) + 1 * (1/10) : ℚ) = 1 from
      by norm_num]
    exact round2_eq_self 100 (by norm_num)
  have hcm : compute_metrics (.returns "x" (.ok riskObj))
      = .ok (riskObj ++ [("overall_quality", JValue.num 1)]) := by
    have h0 : compute_metrics (.returns "x" (.ok riskObj))
        = .ok (riskObj ++ [("overall_quality", JValue.num (round2
            (1 * (3/10) + 1 * (2/5) + 1 * (1/5) + 1 * (1/10))))]) := rfl
    rw [h0, hr2]
  unfold engineEvaluate
  simp only [hcm,
    show jGetNum (riskObj ++ [("overall_quality", JValue.num 1)])
        "overall_quality" 0 = .ok 1 from rfl]
  rw [show (evFx.evaluate "hello").rule_score = 1 from by decide]
  rw [show (evFx.evaluate "hello").rule_flags = [] from by decide]
  rw [show judgedHighRisk (riskObj ++ [("overall_quality", JValue.num 1)])
      = true from rfl]
  rw [show (1 * (2/5) + 1 * (3/5) : ℚ) = 1 from by norm_num]
  rw [show round2 (1 : ℚ) = 1 from round2_eq_self 100 (by norm_num)]
  rw [if_pos (show (1 : ℚ) > 7/10 from by norm_num)]
  rfl

/-- Witness for C9: a judge dict carrying hallucination_risk HIGH
makes the packet's flags exactly the rule flags plus the LLM flag. -/
theorem flags_merge_spec_witness :
    (engineEvaluate evFx (.returns "x" (.ok riskObj)) true "q" "hello" "").map
      (fun p => p.flags) = .ok [llmFlagMsg] := by
  have h := flags_merge_spec evFx (.returns "x" (.ok riskObj)) true
    "q" "hello" "" pktRisk engineEvaluate_riskObj
  rw [engineEvaluate_riskObj]
  simp only [Except.map, Except.ok.injEq]
  rw [h.1]
  decide

/-- Extracting the numeric readings succeeds on a list with no string
values. -/
theorem pyNums_num : ∀ (vals : List JValue),
    (∀ v ∈ vals, ∀ s, v ≠ .str s) →
    pyNums vals = some (vals.map jnum) := by
  intro vals
  induction vals with
  | nil => intro _; rfl
  | cons v vs ih =>
    intro h
    rcases v with q | s
    · have hrest := ih (fun w hw s => h w (List.mem_cons_of_mem _ hw) s)
      simp [pyNums, hrest, jnum]
    · exact absurd rfl (h _ (List.mem_cons_self _ _) s)

/-- `statistics.mean` on a list with no string values is the sum of
the numeric readings over the length. -/
theorem pyMean_ok {vals : List JValue}
    (h : ∀ v ∈ vals, ∀ s, v ≠ .str s) :
    pyMean vals = .ok ((vals.map jnum).sum / (vals.length : ℚ)) := by
  unfold pyMean
  simp only [pyNums_num vals h]
  rw [List.length_map]

/-- Values collected from well-formed metrics dicts are never
strings. -/
theorem collected_not_str {entries : List LogEntry} {k : String}
    (wf : ∀ e ∈ entries, numOrAbsent e.metrics k = true) :
    ∀ v ∈ collectedScores entries k, ∀ s, v ≠ .str s := by
  intro v hv s
  unfold collectedScores at hv
  obtain ⟨e, he, rfl⟩ := List.mem_map.mp hv
  have he' : e ∈ entries := by
    unfold errorFreeEntries at he
    exact (List.mem_filter.mp he).1
  have hwf := wf e he'
  unfold numOrAbsent at hwf
  rcases hl : List.lookup k e.metrics with _ | v'
  · simp
  · rcases v' with q | s'
    · simp
    · rw [hl] at hwf
      simp at hwf

/-- Numeric readings of the collected values are exactly the default-0
readings of the error-free entries. -/
theorem collected_map_jnum (entries : List LogEntry) (k : String) :
    (collectedScores entries k).map jnum
      = (errorFreeEntries entries).map (fun e => jGetNumD e.metrics k 0) := by
  unfold collectedScores
  rw [List.map_map]
  exact List.map_congr_left (fun e _ => jnum_getD e.metrics k)

/-- C8: for a well-formed nonempty store the report counts every
entry, averages relevance, consistency and clarity over exactly the
entries whose judge metrics carry no error key (degraded entries still
count toward the rate's denominator), and formats the hallucination
rate as (flagged count / total) * 100 to one decimal. -/
theorem generate_report_spec (entries : List LogEntry)
    (hne : entries ≠ [])
    (wf : ∀ e ∈ entries, numOrAbsent e.metrics "relevance_score" = true
        ∧ numOrAbsent e.metrics "consistency_score" = true
        ∧ numOrAbsent e.metrics "clarity_score" = true) :
    ∃ s : ReportSummary,
      generate_report (some entries) = .ok (.summary s)
      ∧ s.total_queries = entries.length
      ∧ s.hallucination_rate
          = fmtPct (((hallucinationCount entries : ℚ)
              / (entries.length : ℚ)) * 100)
      ∧ (errorFreeEntries entries ≠ [] →
          s.avg_relevance = metricMean entries "relevance_score"
          ∧ s.avg_consistency = metricMean entries "consistency_score"
          ∧ s.avg_clarity = metricMean entries "clarity_score")
      ∧ (errorFreeEntries entries = [] →
          s.avg_relevance = 0 ∧ s.avg_consistency = 0 ∧ s.avg_clarity = 0) := by
  have htot : ¬(entries.length = 0) := fun h => hne (List.length_eq_zero.mp h)
  by_cases hEF : errorFreeEntries entries = []
  · have hc : ∀ k, collectedScores entries k = [] := by
      intro k
      unfold collectedScores
      rw [hEF]
      rfl
    have hrep : generate_report (some entries) = .ok (.summary
        { total_queries := entries.length
          avg_relevance := 0
          avg_consistency := 0
          avg_clarity := 0
          hallucination_rate := fmtPct (((hallucinationCount entries : ℚ)
              / (entries.length : ℚ)) * 100)
          tuning_recommendations := tuningSignals 0 0 0
              ((hallucinationCount entries : ℚ) / (entries.length : ℚ)) }) := by
      simp only [generate_report]
      rw [if_neg htot]
      simp only [show avgOf (collectedScores entries "relevance_score")
          = .ok 0 from by rw [hc]; rfl,
        show avgOf (collectedScores entries "consistency_score")
          = .ok 0 from by rw [hc]; rfl,
        show avgOf (collectedScores entries "clarity_score")
          = .ok 0 from by rw [hc]; rfl]
    exact ⟨_, hrep, rfl, rfl, fun hh => absurd hEF hh,
      fun _ => ⟨rfl, rfl, rfl⟩⟩
  · have hcne : ∀ k, (collectedScores entries k).isEmpty = false := by
      intro k
      unfold collectedScores
      rcases hE : errorFreeEntries entries with _ | ⟨e, es⟩
      · exact absurd hE hEF
      · rfl
    have havg : ∀ k, (∀ e ∈ entries, numOrAbsent e.metrics k = true) →
        avgOf (collectedScores entries k) = .ok (metricMean entries k) := by
      intro k hwk
      unfold avgOf
      rw [hcne k]
      rw [if_neg (by simp)]
      rw [pyMean_ok (collected_not_str hwk)]
      unfold metricMean
      rw [collected_map_jnum]
      unfold collectedScores
      rw [List.length_map]
    have hrep : generate_report (some entries) = .ok (.summary
        { total_queries := entries.length
          avg_relevance := metricMean entries "relevance_score"
          avg_consistency := metricMean entries "consistency_score"
          avg_clarity := metricMean entries "clarity_score"
          hallucination_rate := fmtPct (((hallucinationCount entries : ℚ)
              / (entries.length : ℚ)) * 100)
          tuning_recommendations := tuningSignals
              (metricMean entries "relevance_score")
              (metricMean entries "consistency_score")
              (metricMean entries "clarity_score")
              ((hallucinationCount entries : ℚ) / (entries.length : ℚ)) }) := by
      simp only [generate_report]
      rw [if_neg htot]
      simp only [havg "relevance_score" (fun e he => (wf e he).1),
        havg "consistency_score" (fun e he => (wf e he).2.1),
        havg "clarity_score" (fun e he => (wf e he).2.2)]
    exact ⟨_, hrep, rfl, rfl, fun _ => ⟨rfl, rfl, rfl⟩,
      fun hh => absurd hh hEF⟩

/-- Witness for C8: ten logged events, two of them rule-flagged, give
total 10, hallucination rate "20.0%", and a relevance mean over the
eight error-free entries; an all-clean one-entry log formats a zero
rate. -/
theorem generate_report_spec_witness :
    reportTotal (generate_report (some logTen)) = some 10
    ∧ reportRate (generate_report (some logTen)) = some "20.0%"
    ∧ reportAvgRel (generate_report (some logTen)) = some 1
    ∧ reportRate (generate_report (some logClean)) = some "0.0%" := by
  obtain ⟨s, hrep, htot, hrate, hmeans, -⟩ :=
    generate_report_spec logTen (by decide) (by decide)
  obtain ⟨s2, hrep2, -, hrate2, -, -⟩ :=
    generate_report_spec logClean (by decide) (by decide)
  have hfmt : fmtPct (((hallucinationCount logTen : ℚ)
      / (logTen.length : ℚ)) * 100) = "20.0%" := by
    rw [show hallucinationCount logTen = 2 from by decide,
      show logTen.length = 10 from by decide]
    rw [show (((2 : ℕ) : ℚ) / ((10 : ℕ) : ℚ)) * 100 = 20 from by norm_num]
    unfold fmtPct
    rw [show ((20 : ℚ) * 10) = ((200 : ℤ) : ℚ) from by norm_num,
      roundHalfEven_intCast]
    decide
  have hfmt2 : fmtPct (((hallucinationCount logClean : ℚ)
      / (logClean.length : ℚ)) * 100) = "0.0%" := by
    rw [show hallucinationCount logClean = 0 from by decide,
      show logClean.length = 1 from by decide]
    rw [show (((0 : ℕ) : ℚ) / ((1 : ℕ) : ℚ)) * 100 = 0 from by norm_num]
    unfold fmtPct
    rw [show ((0 : ℚ) * 10) = ((0 : ℤ) : ℚ) from by norm_num,
      roundHalfEven_intCast]
    decide
  have hmm : metricMean logTen "relevance_score" = 1 := by
    unfold metricMean
    rw [show errorFreeEntries logTen = List.replicate 8 entryClean from
      by decide]
    rw [show (List.replicate 8 entryClean).map
        (fun e => jGetNumD e.metrics "relevance_score" 0)
        = List.replicate 8 (1 : ℚ) from by decide]
    simp only [List.sum_replicate, List.length_replicate, smul_eq_mul]
    norm_num
  refine ⟨?_, ?_, ?_, ?_⟩
  · rw [hrep]
    simp only [reportTotal]
    rw [htot]
    rfl
  · rw [hrep]
    simp only [reportRate]
    rw [hrate, hfmt]
  · rw [hrep]
    simp only [reportAvgRel]
    rw [(hmeans (by decide)).1, hmm]
  · rw [hrep2]
    simp only [reportRate]
    rw [hrate2, hfmt2]

end ChatbotEval